import Mathlib

/-!
Shallow embedding of the room/user core of the synctv repository
(`src/room/user.go`), together with the parts of the surrounding `room`
package that file uses (`Room`, `Movie`, the ordered movie set) modelled
from the specification where their source is not available.

Conventions of the embedding:
* Go `uint64` values are `Nat`; the one place arithmetic can overflow
  (`atomic.AddUint64`) reduces modulo `2^64` explicitly.
* A Go `map[string]string` is `Option (List (String × String))`: `none`
  is the nil map, `some l` a (reference to a) populated map.  The code
  under study only ever copies or replaces whole map references, never
  mutates a map in place, so value semantics is faithful.
* `bcrypt.GenerateFromPassword` is an oracle parameter
  `hash : String → Option (List Nat)`: `none` models a hashing error,
  `some h` the produced hash bytes.  (Go's bcrypt succeeds on any input
  of at most 72 bytes, in particular on the empty string.)
* `rand.Uint64()` is an oracle parameter `seed : Nat`.
* Methods that mutate their receiver or the room through a pointer are
  state-passing functions returning the updated `User`/`Room`.
-/

/-- A Go `map[string]string` header map: `none` is the nil map. -/
abbrev Headers := Option (List (String × String))

/-- `BaseMovieInfo` record: URL, display name, live flag, proxy flag,
live-source (rtmp) flag, media type, header map.  The Go struct is not
under `src/`; its fields are exactly those read and written by
`src/room/user.go` (Url, Name, Live, Proxy, RtmpSource, Type, Headers). -/
structure BaseMovieInfo where
  Url : String
  Name : String
  Live : Bool
  Proxy : Bool
  RtmpSource : Bool
  Type_ : String
  Headers : Headers
deriving Repr, DecidableEq

/-- A stored playlist entry (node of the ordered movie set).  Modelled from
the spec: numeric ID assigned once, embedded base info, optional live pull
key, creation timestamp, and a non-owning creator reference resolved by
name (`m.Creator().name` in the source). -/
structure Movie where
  id : Nat
  base : BaseMovieInfo
  PullKey : String
  CreatedAt : Int
  creatorName : String
deriving Repr, DecidableEq

/-- The view type `pb.MovieInfo` returned by `User.Movie`; fields are the
ones the source populates. -/
structure PbMovieInfo where
  Id : Nat
  Url : String
  Name : String
  Live : Bool
  Proxy : Bool
  RtmpSource : Bool
  Type_ : String
  Headers : Headers
  PullKey : String
  CreatedAt : Int
  Creator : String
deriving Repr, DecidableEq

/-- The view type `MovieInfo` returned by `User.Movies`: an ID, an embedded
`BaseMovieInfo`, pull key, creation time and creator name. -/
structure MovieInfo where
  Id : Nat
  base : BaseMovieInfo
  PullKey : String
  CreatedAt : Int
  Creator : String
deriving Repr, DecidableEq

/-- A room account (`User` struct of `src/room/user.go`): name, password
hash bytes, 64-bit version counter, admin flag, last-activity timestamp.
The `room` back-pointer is passed explicitly to the operations. -/
structure User where
  name : String
  password : List Nat
  version : Nat
  admin : Bool
  lastAct : Int
deriving Repr, DecidableEq

/-- The room state the operations of `src/room/user.go` touch.  Modelled
from the spec: the `OrderedMovieSet` is the list of entries in insertion
order; `mid` is the monotonically increasing movie-id counter (a fresh
room starts it at zero); `rootName` identifies the designated root
account (account names are unique within a room, so the source's pointer
comparison `u.room.rootUser == u` is name comparison here); `channels`
is the set of allocated live-ingestion pull keys. -/
structure Room where
  movies : List Movie
  mid : Nat
  rootName : String
  channels : List String
deriving Repr, DecidableEq

/-- Errors produced by account creation and password change in the source
(`ErrUsernameEmpty`, `ErrUsernameTooLong`, `ErrUserPasswordEmpty`,
`ErrUserPasswordTooLong`), plus a propagated hashing failure. -/
inductive UserErr where
  | usernameEmpty
  | usernameTooLong
  | userPasswordEmpty
  | userPasswordTooLong
  | hashFailure
deriving Repr, DecidableEq

/-- Errors of the movie operations: `NotFound` from the movie-set lookup
(modelled from the spec) and the permission error of `EditMovie`. -/
inductive RoomErr where
  | notFound
  | permissionDenied
deriving Repr, DecidableEq

/-- The `UserConf` options of the source: `WithUserVersion` and
`WithUserAdmin`. -/
inductive UserConf where
  | withUserVersion (v : Nat)
  | withUserAdmin (a : Bool)
deriving Repr, DecidableEq

/-- Application of one `UserConf` option to a user under construction. -/
def applyUserConf (u : User) : UserConf → User
  | .withUserVersion v => { u with version := v }
  | .withUserAdmin a => { u with admin := a }

/-- `NewUser` of `src/room/user.go`: validates the name (non-empty,
≤ 32 bytes) and password (non-empty, ≤ 32 bytes), hashes the password,
builds the user (version zero-valued, admin false), applies the options,
and replaces a still-zero version by the random seed.  `hash` and `seed`
are the bcrypt and `rand.Uint64` oracles; `now` is the creation time. -/
def NewUser (hash : String → Option (List Nat)) (seed : Nat) (now : Int)
    (id : String) (password : String) (conf : List UserConf) : Except UserErr User :=
  if id = "" then Except.error UserErr.usernameEmpty
  else if id.utf8ByteSize > 32 then Except.error UserErr.usernameTooLong
  else if password = "" then Except.error UserErr.userPasswordEmpty
  else if password.utf8ByteSize > 32 then Except.error UserErr.userPasswordTooLong
  else
    match hash password with
    | none => Except.error UserErr.hashFailure
    | some hashedPassword =>
      let u : User :=
        { name := id, password := hashedPassword, version := 0, admin := false, lastAct := now }
      let u := conf.foldl applyUserConf u
      if u.version = 0 then Except.ok { u with version := seed } else Except.ok u

/-- `User.Version`: atomic load of the version counter. -/
def User.Version (u : User) : Nat :=
  u.version

/-- `User.CheckVersion`: exact-equality comparison with the loaded version. -/
def User.CheckVersion (u : User) (version : Nat) : Bool :=
  u.Version == version

/-- `User.SetVersion`: atomic store of an arbitrary version value. -/
def User.SetVersion (u : User) (version : Nat) : User :=
  { u with version := version }

/-- `User.updateVersion`: `atomic.AddUint64(&u.version, 1)` — returns the
new value; uint64 addition wraps modulo `2^64`. -/
def User.updateVersion (u : User) : Nat × User :=
  let v := (u.version + 1) % 2 ^ 64
  (v, { u with version := v })

/-- `User.SetPassword`: hashes the new password (no bounds checks), and on
success stores the hash and bumps the version; on a hashing error returns
the error with the user unchanged. -/
def User.SetPassword (hash : String → Option (List Nat)) (u : User)
    (password : String) : Option UserErr × User :=
  match hash password with
  | none => (some UserErr.hashFailure, u)
  | some hashedPassword =>
    let u := { u with password := hashedPassword }
    (none, (u.updateVersion).2)

/-- `User.IsAdmin`. -/
def User.IsAdmin (u : User) : Bool :=
  u.admin

/-- `User.IsRoot`: the source compares `u.room.rootUser == u` by pointer;
with names unique within a room this is comparison with the room's root
account name. -/
def User.IsRoot (u : User) (r : Room) : Bool :=
  u.name == r.rootName

/-- Modelled from the spec: `OrderedMovieSet` point lookup (`GetMovie`),
returning the first (unique) entry with the given ID, `NotFound`
otherwise. -/
def GetMovie (l : List Movie) (id : Nat) : Option Movie :=
  l.find? (fun m => m.id == id)

/-- Modelled from the spec: in-place update of the stored entry with the
given ID (the node the source mutates through its pointer). -/
def updateMovie : List Movie → Nat → (Movie → Movie) → List Movie
  | [], _, _ => []
  | m :: rest, id, f =>
    if m.id == id then f m :: rest else m :: updateMovie rest id f

/-- `User.Movie` of `src/room/user.go`: looks the entry up, builds the
`pb.MovieInfo` view field by field (the view's `Headers` copies the stored
map reference), then — when the entry is proxied and the requester is not
the creator — executes `m.Headers = nil`, which assigns nil to the
*stored* entry's header field while the already-built view keeps the
original map.  Returns the view and the resulting room state. -/
def User.Movie (u : User) (id : Nat) (r : Room) : Except RoomErr PbMovieInfo × Room :=
  match GetMovie r.movies id with
  | none => (Except.error RoomErr.notFound, r)
  | some m =>
    let movie : PbMovieInfo :=
      { Id := m.id, Url := m.base.Url, Name := m.base.Name, Live := m.base.Live,
        Proxy := m.base.Proxy, RtmpSource := m.base.RtmpSource, Type_ := m.base.Type_,
        Headers := m.base.Headers, PullKey := m.PullKey, CreatedAt := m.CreatedAt,
        Creator := m.creatorName }
    if movie.Proxy && (u.name != movie.Creator) then
      (Except.ok movie,
        { r with movies := updateMovie r.movies id (fun mm => { mm with base.Headers := none }) })
    else
      (Except.ok movie, r)

/-- `User.Movies` of `src/room/user.go`: full in-order traversal; for each
entry a fresh `MovieInfo` view is built field by field, and when the entry
is proxied and the requester is not the creator the *view's* headers are
set to nil.  The loop never writes to a stored node, so the room state is
returned unchanged. -/
def User.Movies (u : User) (r : Room) : List MovieInfo × Room :=
  (r.movies.map (fun mv =>
    let m : MovieInfo :=
      { Id := mv.id,
        base :=
          { Url := mv.base.Url, Name := mv.base.Name, Live := mv.base.Live,
            Proxy := mv.base.Proxy, RtmpSource := mv.base.RtmpSource,
            Type_ := mv.base.Type_, Headers := mv.base.Headers },
        PullKey := mv.PullKey, CreatedAt := mv.CreatedAt, Creator := mv.creatorName }
    if mv.base.Proxy && (u.name != m.Creator) then { m with base.Headers := none } else m), r)

/-- `User.EditMovie` of `src/room/user.go`: looks the entry up, rejects a
requester who is neither admin nor root nor the creator, otherwise
replaces the base info wholesale and then clears the pull key when the
live-source flag transitions true→false (also releasing the channel) or
— failing that — when the proxy flag transitions true→false. -/
def User.EditMovie (u : User) (id : Nat) (movie : BaseMovieInfo) (r : Room) :
    Except RoomErr Unit × Room :=
  match GetMovie r.movies id with
  | none => (Except.error RoomErr.notFound, r)
  | some m =>
    if !u.IsAdmin && !(u.IsRoot r) && (m.creatorName != u.name) then
      (Except.error RoomErr.permissionDenied, r)
    else
      let pre := m.base
      if pre.RtmpSource && !movie.RtmpSource then
        (Except.ok (),
          { r with
            movies := updateMovie r.movies id (fun mm => { mm with base := movie, PullKey := "" }),
            channels := r.channels.erase m.PullKey })
      else if pre.Proxy && !movie.Proxy then
        (Except.ok (),
          { r with movies := updateMovie r.movies id (fun mm => { mm with base := movie, PullKey := "" }) })
      else
        (Except.ok (),
          { r with movies := updateMovie r.movies id (fun mm => { mm with base := movie }) })

/-- Modelled from the spec: the package-level movie constructor
(`NewMovieWithBaseMovie` of the `room` package, not under `src/`) builds
the node from the assigned ID, base info and creator; the live-channel
allocator assigns a pull key exactly when the live-source flag is true
(`keyGen` is the key-generation oracle). -/
def MkMovie (keyGen : Nat → String) (id : Nat) (base : BaseMovieInfo)
    (creatorName : String) (now : Int) : Movie :=
  { id := id, base := base,
    PullKey := if base.RtmpSource then keyGen id else "",
    CreatedAt := now, creatorName := creatorName }

/-- Alias for the stored-entry type, usable inside the `User` namespace
where the bare name `Movie` resolves to the getter `User.Movie`. -/
abbrev MovieEntry := Movie

/-- `User.NewMovieWithBaseMovie` of `src/room/user.go`: assigns
`atomic.AddUint64(&u.room.mid, 1)` as the ID (uint64 addition, modulo
`2^64`) and builds the node with the user as creator; the node is
appended at the tail of the ordered movie set (modelled from the spec),
and an allocated pull key is recorded with the channel allocator. -/
def User.NewMovieWithBaseMovie (u : User) (base : BaseMovieInfo) (r : Room)
    (keyGen : Nat → String) (now : Int) : MovieEntry × Room :=
  let newMid := (r.mid + 1) % 2 ^ 64
  let m := MkMovie keyGen newMid base u.name now
  (m, { r with
        mid := newMid,
        movies := r.movies ++ [m],
        channels := if base.RtmpSource then r.channels ++ [m.PullKey] else r.channels })

/-- Modelled from the spec: `DeleteMovie` releases any associated live
channel and splices the node out of the ordered movie set. -/
def DeleteMovieNode (r : Room) (id : Nat) : Room :=
  match GetMovie r.movies id with
  | none => r
  | some m =>
    { r with
      movies := r.movies.filter (fun mv => mv.id ≠ id),
      channels := r.channels.erase m.PullKey }

/-- One step of a playlist-mutating trace: a successful `NewMovie` call by
the named user, or a movie deletion. -/
inductive MOp where
  | newM (creatorName : String) (base : BaseMovieInfo)
  | delM (id : Nat)
deriving Repr, DecidableEq

/-- Number of `NewMovie` calls in a trace. -/
def newCount : List MOp → Nat
  | [] => 0
  | MOp.newM _ _ :: rest => newCount rest + 1
  | MOp.delM _ :: rest => newCount rest

/-- Runs a trace of playlist operations on a room, collecting the movie
IDs assigned by the `NewMovie` calls in call order. -/
def runOps (keyGen : Nat → String) : Room → List MOp → List Nat × Room
  | r, [] => ([], r)
  | r, MOp.newM creator base :: rest =>
    let u : User := { name := creator, password := [], version := 1, admin := false, lastAct := 0 }
    let mr := User.NewMovieWithBaseMovie u base r keyGen 0
    let tailRes := runOps keyGen mr.2 rest
    (mr.1.id :: tailRes.1, tailRes.2)
  | r, MOp.delM id :: rest => runOps keyGen (DeleteMovieNode r id) rest

/-- One operation on an account's version state, as listed in the spec:
`SetPassword`, `SetVersion`, `BumpVersion`/`updateVersion`, and the
read-only `CheckVersion`/`Version`. -/
inductive VOp where
  | setPassword (p : String)
  | setVersion (v : Nat)
  | bumpVersion
  | checkVersion (v : Nat)
  | readVersion
deriving Repr, DecidableEq

/-- Whether an operation is a `SetVersion`. -/
def VOp.isSetV : VOp → Bool
  | VOp.setVersion _ => true
  | _ => false

/-- Effect of one version-state operation on the account. -/
def applyVOp (hash : String → Option (List Nat)) (u : User) : VOp → User
  | VOp.setPassword p => (User.SetPassword hash u p).2
  | VOp.setVersion v => User.SetVersion u v
  | VOp.bumpVersion => (User.updateVersion u).2
  | VOp.checkVersion _ => u
  | VOp.readVersion => u

/-- Runs a sequence of version-state operations on the account. -/
def runVOps (hash : String → Option (List Nat)) : User → List VOp → User
  | u, [] => u
  | u, op :: rest => runVOps hash (applyVOp hash u op) rest

/-! ### Concrete fixtures used by witnesses and counterexamples -/

/-- A bcrypt oracle that hashes every input successfully (Go's bcrypt
succeeds on all inputs of at most 72 bytes, the empty string included). -/
def hashOk : String → Option (List Nat) := fun _ => some [1]

/-- The account `alice` (non-admin, non-root). -/
def alice : User :=
  { name := "alice", password := [1], version := 1, admin := false, lastAct := 0 }

/-- The account `bob` (non-admin, non-root). -/
def bob : User :=
  { name := "bob", password := [1], version := 1, admin := false, lastAct := 0 }

/-- A proxied movie created by `alice` with a populated header map. -/
def movieA : Movie :=
  { id := 1,
    base :=
      { Url := "http://x/a.mp4", Name := "A", Live := false, Proxy := true,
        RtmpSource := false, Type_ := "", Headers := some [("A", "B")] },
    PullKey := "", CreatedAt := 0, creatorName := "alice" }

/-- A room holding only `movieA`. -/
def roomA : Room :=
  { movies := [movieA], mid := 1, rootName := "root", channels := [] }

/-! ### Claims -/

/-- C1: the claim says that for a proxied entry `User.Movie` returns a
*redacted* view to a non-creator.  The source instead executes
`m.Headers = nil` on the stored entry, while the returned view was built
from the original map reference beforehand: `bob` (non-creator) receives
`alice`'s headers `{A: B}` unredacted.  (The creator's own view is also
unredacted, as the claim says.) -/
theorem movie_getter_leaks_headers_to_non_creator :
    (User.Movie bob 1 roomA).1.toOption.map PbMovieInfo.Headers
      = some (some [("A", "B")]) ∧
    (User.Movie alice 1 roomA).1.toOption.map PbMovieInfo.Headers
      = some (some [("A", "B")]) := by
  decide

/-- C2: the claim says `User.Movie` never mutates the stored entry.  The
source's `m.Headers = nil` writes through the pointer to the stored node:
after `bob`'s call the entry kept in the movie set has a nil header map,
different from its pre-call value. -/
theorem movie_getter_mutates_stored_entry :
    GetMovie ((User.Movie bob 1 roomA).2).movies 1
      = some { movieA with base.Headers := none } ∧
    ({ movieA with base.Headers := none } : Movie) ≠ movieA := by
  decide

/-- C3 counterexample: `SetVersion` stores an arbitrary value, so the
version counter is not monotone over all operation sequences: after
`SetVersion 5` the counter reads 5, and a later `SetVersion 3` makes it
read 3 < 5. -/
theorem setVersion_can_decrease_version :
    (runVOps hashOk alice [VOp.setVersion 5]).Version = 5 ∧
    (runVOps hashOk alice [VOp.setVersion 5, VOp.setVersion 3]).Version = 3 ∧
    (3 : Nat) < 5 := by
  decide

/-- C5 counterexample: `User.SetPassword` performs no bounds validation.
On the empty password (and on a 40-byte one) it returns no error — in
particular not the empty-password/too-long errors the claim requires —
re-hashes, and bumps the version. -/
theorem setPassword_accepts_empty_password :
    (User.SetPassword hashOk alice "").1 = none ∧
    (User.SetPassword hashOk alice "").2.Version = alice.Version + 1 ∧
    (User.SetPassword hashOk alice "0123456789012345678901234567890123456789").1 = none := by
  decide

/-- C9 counterexample: `WithUserVersion 0` is indistinguishable from an
absent version option — zero is the unset sentinel — so the created
account's version is the random seed (7), not the supplied value 0. -/
theorem newUser_zero_version_option_overridden :
    (NewUser hashOk 7 0 "alice" "pw" [UserConf.withUserVersion 0]).toOption
      = some { name := "alice", password := [1], version := 7, admin := false, lastAct := 0 } ∧
    (7 : Nat) ≠ 0 := by
  decide

/-- Step bounds for one non-`SetVersion` operation: the version is left
unchanged or incremented by exactly one (no wraparound below `2^64`). -/
theorem applyVOp_version_bounds (hash : String → Option (List Nat)) (u : User) (op : VOp)
    (hop : op.isSetV = false) (hb : u.version + 1 < 2 ^ 64) :
    u.version ≤ (applyVOp hash u op).version ∧
      (applyVOp hash u op).version ≤ u.version + 1 := by
  cases op with
  | setPassword p =>
    unfold applyVOp User.SetPassword
    cases hh : hash p with
    | none => simp [hh]
    | some h =>
      simp only [hh, User.updateVersion]
      omega
  | setVersion v => simp [VOp.isSetV] at hop
  | bumpVersion =>
    unfold applyVOp
    simp only [User.updateVersion]
    omega
  | checkVersion v => simp [applyVOp]
  | readVersion => simp [applyVOp]

/-- C3 (amended): excluding `SetVersion` — which stores an arbitrary
value — the version counter is non-decreasing across any sequence of
account operations, provided the counter does not wrap around the 64-bit
bound. -/
theorem version_nondecreasing_without_setVersion
    (hash : String → Option (List Nat)) (u : User) (ops : List VOp)
    (hops : ∀ op ∈ ops, op.isSetV = false)
    (hb : u.version + ops.length < 2 ^ 64) :
    u.version ≤ (runVOps hash u ops).version := by
  induction ops generalizing u with
  | nil => exact Nat.le_refl _
  | cons op rest ih =>
    have hop : op.isSetV = false := hops op (List.mem_cons_self _ _)
    have hb1 : u.version + 1 < 2 ^ 64 := by
      have hlen : u.version + (rest.length + 1) < 2 ^ 64 := by
        simpa [List.length_cons] using hb
      omega
    obtain ⟨hlo, hhi⟩ := applyVOp_version_bounds hash u op hop hb1
    have hrest : ∀ o ∈ rest, o.isSetV = false := fun o ho => hops o (List.mem_cons_of_mem _ ho)
    have hb2 : (applyVOp hash u op).version + rest.length < 2 ^ 64 := by
      have hlen : u.version + (rest.length + 1) < 2 ^ 64 := by
        simpa [List.length_cons] using hb
      omega
    have hstep : runVOps hash u (op :: rest) = runVOps hash (applyVOp hash u op) rest := rfl
    rw [hstep]
    exact Nat.le_trans hlo (ih (applyVOp hash u op) hrest hb2)

/-- Witness for the amended C3 theorem: a concrete trace of bump,
password change and reads never decreases `alice`'s version. -/
theorem version_nondecreasing_without_setVersion_witness :
    alice.version ≤
      (runVOps hashOk alice
        [VOp.bumpVersion, VOp.setPassword "x", VOp.checkVersion 2, VOp.readVersion]).version :=
  version_nondecreasing_without_setVersion hashOk alice
    [VOp.bumpVersion, VOp.setPassword "x", VOp.checkVersion 2, VOp.readVersion]
    (by decide) (by decide)

/-- C5 (amended): `SetPassword` performs no bounds validation: it never
returns the empty-password or too-long errors; it fails exactly when the
hashing primitive fails, leaving the account unchanged in that case; on
success it stores the new hash and bumps the version by one (mod `2^64`),
whatever the password's length. -/
theorem setPassword_no_bounds_validation
    (hash : String → Option (List Nat)) (u : User) (p : String) :
    (User.SetPassword hash u p).1 ≠ some UserErr.userPasswordEmpty ∧
    (User.SetPassword hash u p).1 ≠ some UserErr.userPasswordTooLong ∧
    ((User.SetPassword hash u p).1 = some UserErr.hashFailure ↔ hash p = none) ∧
    (hash p = none → (User.SetPassword hash u p).2 = u) ∧
    (∀ h, hash p = some h →
      (User.SetPassword hash u p).1 = none ∧
      (User.SetPassword hash u p).2.version = (u.version + 1) % 2 ^ 64 ∧
      (User.SetPassword hash u p).2.password = h) := by
  unfold User.SetPassword
  cases hh : hash p with
  | none => simp [User.updateVersion]
  | some h => simp [User.updateVersion]

/-- Witness for the amended C5 theorem: changing `bob`'s password to a
concrete value succeeds and bumps the version. -/
theorem setPassword_no_bounds_validation_witness :
    (User.SetPassword hashOk bob "x").1 = none ∧
    (User.SetPassword hashOk bob "x").2.version = (bob.version + 1) % 2 ^ 64 ∧
    (User.SetPassword hashOk bob "x").2.password = [1] :=
  (setPassword_no_bounds_validation hashOk bob "x").2.2.2.2 [1] rfl

/-- C9 (amended): `NewUser` fails with the empty-name error on an empty
name, the name-too-long error beyond 32 bytes, the empty-password and
password-too-long errors likewise, and propagates a hashing failure; for
valid inputs with hashing succeeding it returns an account whose version
is the random seed when no version option is given, and the
option-supplied value when that value is nonzero (zero is the unset
sentinel and is replaced by the seed). -/
theorem newUser_spec (hash : String → Option (List Nat)) (seed : Nat) (now : Int)
    (id p : String) (conf : List UserConf) :
    (id = "" → NewUser hash seed now id p conf = Except.error UserErr.usernameEmpty) ∧
    (id ≠ "" → id.utf8ByteSize > 32 →
      NewUser hash seed now id p conf = Except.error UserErr.usernameTooLong) ∧
    (id ≠ "" → id.utf8ByteSize ≤ 32 → p = "" →
      NewUser hash seed now id p conf = Except.error UserErr.userPasswordEmpty) ∧
    (id ≠ "" → id.utf8ByteSize ≤ 32 → p ≠ "" → p.utf8ByteSize > 32 →
      NewUser hash seed now id p conf = Except.error UserErr.userPasswordTooLong) ∧
    (id ≠ "" → id.utf8ByteSize ≤ 32 → p ≠ "" → p.utf8ByteSize ≤ 32 → hash p = none →
      NewUser hash seed now id p conf = Except.error UserErr.hashFailure) ∧
    (∀ h, id ≠ "" → id.utf8ByteSize ≤ 32 → p ≠ "" → p.utf8ByteSize ≤ 32 → hash p = some h →
      conf = [] →
      NewUser hash seed now id p conf =
        Except.ok { name := id, password := h, version := seed, admin := false, lastAct := now }) ∧
    (∀ h v, id ≠ "" → id.utf8ByteSize ≤ 32 → p ≠ "" → p.utf8ByteSize ≤ 32 → hash p = some h →
      conf = [UserConf.withUserVersion v] → v ≠ 0 →
      NewUser hash seed now id p conf =
        Except.ok { name := id, password := h, version := v, admin := false, lastAct := now }) := by
  unfold NewUser
  refine ⟨?_, ?_, ?_, ?_, ?_, ?_, ?_⟩
  · intro h1
    rw [if_pos h1]
  · intro h1 h2
    rw [if_neg h1, if_pos h2]
  · intro h1 h2 h3
    rw [if_neg h1, if_neg (by omega), if_pos h3]
  · intro h1 h2 h3 h4
    rw [if_neg h1, if_neg (by omega), if_neg h3, if_pos h4]
  · intro h1 h2 h3 h4 h5
    rw [if_neg h1, if_neg (by omega), if_neg h3, if_neg (by omega), h5]
  · intro h h1 h2 h3 h4 h5 h6
    subst h6
    rw [if_neg h1, if_neg (by omega), if_neg h3, if_neg (by omega), h5]
    simp [List.foldl]
  · intro h v h1 h2 h3 h4 h5 h6 h7
    subst h6
    rw [if_neg h1, if_neg (by omega), if_neg h3, if_neg (by omega), h5]
    simp [List.foldl, applyUserConf, h7]

/-- Witness for the amended C9 theorem: creating `carol` with password
`pw` and a supplied nonzero version 5 yields version 5. -/
theorem newUser_spec_witness :
    NewUser hashOk 7 0 "carol" "pw" [UserConf.withUserVersion 5] =
      Except.ok { name := "carol", password := [1], version := 5, admin := false, lastAct := 0 } :=
  (newUser_spec hashOk 7 0 "carol" "pw" [UserConf.withUserVersion 5]).2.2.2.2.2.2 [1] 5
    (by decide) (by decide) (by decide) (by decide) rfl rfl (by decide)

/-- A new base info used when editing `movieA` (same flags, new name). -/
def baseB : BaseMovieInfo := { movieA.base with Name := "B" }

/-- C7: for an existing movie entry, `EditMovie` fails with the permission
error and leaves the room unchanged unless the requester is an admin, the
room's root user, or the entry's creator; any of those three passes the
permission check (and the edit then succeeds). -/
theorem editMovie_permission_rule (u : User) (r : Room) (id : Nat) (b : BaseMovieInfo)
    (m : Movie) (hm : GetMovie r.movies id = some m) :
    (u.admin = false → u.name ≠ r.rootName → m.creatorName ≠ u.name →
      User.EditMovie u id b r = (Except.error RoomErr.permissionDenied, r)) ∧
    ((u.admin = true ∨ u.name = r.rootName ∨ m.creatorName = u.name) →
      (User.EditMovie u id b r).1 = Except.ok ()) := by
  constructor
  · intro ha hroot hcreat
    have hc : (!u.IsAdmin && !(u.IsRoot r) && (m.creatorName != u.name)) = true := by
      simp [User.IsAdmin, User.IsRoot, ha, hroot, hcreat]
    simp [User.EditMovie, hm, hc]
  · intro hor
    have hc : (!u.IsAdmin && !(u.IsRoot r) && (m.creatorName != u.name)) = false := by
      rcases hor with ha | hroot | hcreat
      · simp [User.IsAdmin, ha]
      · simp [User.IsRoot, hroot]
      · simp [hcreat]
    simp only [User.EditMovie, hm, hc, Bool.false_eq_true, if_false]
    split
    · rfl
    · split
      · rfl
      · rfl

/-- Witness for the C7 theorem: `bob` (non-admin, non-root, non-creator)
is denied editing `alice`'s movie with the room unchanged, while `alice`
(the creator) succeeds. -/
theorem editMovie_permission_rule_witness :
    User.EditMovie bob 1 baseB roomA = (Except.error RoomErr.permissionDenied, roomA) ∧
    (User.EditMovie alice 1 baseB roomA).1 = Except.ok () :=
  ⟨(editMovie_permission_rule bob roomA 1 baseB movieA rfl).1 rfl (by decide) (by decide),
   (editMovie_permission_rule alice roomA 1 baseB movieA rfl).2 (Or.inr (Or.inr rfl))⟩

/-- C8: `User.Movies` returns one view per playlist entry, in insertion
order, with every non-header field copied from the stored entry; the
headers of entry `i` appear in the requester's list exactly when the
entry is not proxied or the requester is its creator, the redaction being
applied independently per entry; the stored entries are untouched. -/
theorem movies_listing_spec (u : User) (r : Room) :
    (User.Movies u r).2 = r ∧
    (User.Movies u r).1.length = r.movies.length ∧
    ∀ i (hi : i < r.movies.length) (hi2 : i < (User.Movies u r).1.length),
      ((User.Movies u r).1[i].Id = r.movies[i].id ∧
       (User.Movies u r).1[i].Creator = r.movies[i].creatorName ∧
       (User.Movies u r).1[i].PullKey = r.movies[i].PullKey ∧
       (User.Movies u r).1[i].CreatedAt = r.movies[i].CreatedAt ∧
       (User.Movies u r).1[i].base.Url = r.movies[i].base.Url ∧
       (User.Movies u r).1[i].base.Name = r.movies[i].base.Name ∧
       (User.Movies u r).1[i].base.Live = r.movies[i].base.Live ∧
       (User.Movies u r).1[i].base.Proxy = r.movies[i].base.Proxy ∧
       (User.Movies u r).1[i].base.RtmpSource = r.movies[i].base.RtmpSource ∧
       (User.Movies u r).1[i].base.Type_ = r.movies[i].base.Type_) ∧
      ((r.movies[i].base.Proxy = false ∨ u.name = r.movies[i].creatorName) →
        (User.Movies u r).1[i].base.Headers = r.movies[i].base.Headers) ∧
      (r.movies[i].base.Proxy = true → u.name ≠ r.movies[i].creatorName →
        (User.Movies u r).1[i].base.Headers = none) := by
  refine ⟨rfl, by simp [User.Movies], ?_⟩
  intro i hi hi2
  unfold User.Movies
  simp only [List.getElem_map]
  by_cases hc : (r.movies[i].base.Proxy && (u.name != r.movies[i].creatorName)) = true
  · rw [if_pos hc]
    rw [Bool.and_eq_true, bne_iff_ne] at hc
    refine ⟨⟨rfl, rfl, rfl, rfl, rfl, rfl, rfl, rfl, rfl, rfl⟩, ?_, ?_⟩
    · intro hor
      rcases hor with hp | hcr
      · rw [hc.1] at hp
        exact absurd hp (by simp)
      · exact absurd hcr hc.2
    · intro _ _
      rfl
  · rw [if_neg hc]
    rw [Bool.and_eq_true, bne_iff_ne] at hc
    push_neg at hc
    refine ⟨⟨rfl, rfl, rfl, rfl, rfl, rfl, rfl, rfl, rfl, rfl⟩, ?_, ?_⟩
    · intro _
      rfl
    · intro hp hne
      exact absurd (hc hp) hne

/-- A non-proxied movie created by `bob`. -/
def movieB : Movie :=
  { id := 2,
    base :=
      { Url := "http://x/b.mp4", Name := "B", Live := false, Proxy := false,
        RtmpSource := false, Type_ := "", Headers := some [("C", "D")] },
    PullKey := "", CreatedAt := 0, creatorName := "bob" }

/-- A room holding `alice`'s proxied movie and `bob`'s plain movie. -/
def roomAB : Room :=
  { movies := [movieA, movieB], mid := 2, rootName := "root", channels := [] }

/-- Witness for the C8 theorem: in `bob`'s listing of `roomAB`, the entry
of `alice`'s proxied movie is redacted while `bob`'s own plain movie keeps
its headers. -/
theorem movies_listing_spec_witness :
    ((User.Movies bob roomAB).1.get ⟨0, by decide⟩).base.Headers = none ∧
    ((User.Movies bob roomAB).1.get ⟨1, by decide⟩).base.Headers = some [("C", "D")] := by
  have h0 := (movies_listing_spec bob roomAB).2.2 0 (by decide) (by decide)
  have h1 := (movies_listing_spec bob roomAB).2.2 1 (by decide) (by decide)
  exact ⟨h0.2.2 (by decide) (by decide), h1.2.1 (Or.inl (by decide))⟩

/-- C10: the views returned by `User.Movie` and `User.Movies` carry the
stored entry's pull key verbatim, for every requester and independently of
the proxy flag: only the header map is subject to redaction. -/
theorem views_preserve_pullKey (u : User) (r : Room) (id : Nat) (m : Movie)
    (hm : GetMovie r.movies id = some m) :
    (User.Movie u id r).1.toOption.map PbMovieInfo.PullKey = some m.PullKey ∧
    (User.Movies u r).1.map MovieInfo.PullKey = r.movies.map Movie.PullKey := by
  constructor
  · simp only [User.Movie, hm]
    split
    · rfl
    · rfl
  · simp only [User.Movies, List.map_map]
    refine List.map_congr_left ?_
    intro mv hmv
    simp only [Function.comp_apply]
    split
    · rfl
    · rfl

/-- Witness for the C10 theorem: `bob`'s views of `roomA` keep `movieA`'s
pull key. -/
theorem views_preserve_pullKey_witness :
    (User.Movie bob 1 roomA).1.toOption.map PbMovieInfo.PullKey = some movieA.PullKey ∧
    (User.Movies bob roomA).1.map MovieInfo.PullKey = roomA.movies.map Movie.PullKey :=
  views_preserve_pullKey bob roomA 1 movieA rfl

/-- The permission guard of `EditMovie` evaluates to false for an admin,
the root user, or the creator. -/
theorem perm_cond_false (u : User) (r : Room) (m : Movie)
    (hperm : u.admin = true ∨ u.name = r.rootName ∨ m.creatorName = u.name) :
    (!u.IsAdmin && !(u.IsRoot r) && (m.creatorName != u.name)) = false := by
  rcases hperm with ha | hroot | hcreat
  · simp [User.IsAdmin, ha]
  · simp [User.IsRoot, hroot]
  · simp [hcreat]

/-- Point lookup after an in-place update of the same ID returns the
updated entry, for ID-preserving updates. -/
theorem GetMovie_updateMovie (l : List Movie) (id : Nat) (f : Movie → Movie)
    (hf : ∀ mv, (f mv).id = mv.id) :
    GetMovie (updateMovie l id f) id = (GetMovie l id).map f := by
  induction l with
  | nil => rfl
  | cons m rest ih =>
    unfold updateMovie
    by_cases h : (m.id == id) = true
    · rw [if_pos h]
      simp [GetMovie, List.find?, hf m, h]
    · rw [if_neg h]
      simp only [GetMovie, List.find?] at ih ⊢
      simp [h, ih]

/-- A live rtmp-source movie of `bob` with proxying enabled and pull key
`k`. -/
def movieL : Movie :=
  { id := 3,
    base :=
      { Url := "rtmp://x/l", Name := "L", Live := true, Proxy := true,
        RtmpSource := true, Type_ := "", Headers := none },
    PullKey := "k", CreatedAt := 0, creatorName := "bob" }

/-- A room holding only `movieL`, with its channel allocated. -/
def roomL : Room :=
  { movies := [movieL], mid := 3, rootName := "root", channels := ["k"] }

/-- An edit of `movieL` that turns proxying off but keeps the live-source
flag on. -/
def baseL : BaseMovieInfo := { movieL.base with Proxy := false }

/-- The entry stored after that edit. -/
def mAfterL : Movie := { movieL with base := baseL, PullKey := "" }

/-- An edit of `movieL` that keeps all flags (only renames it). -/
def baseL2 : BaseMovieInfo := { movieL.base with Name := "L2" }

/-- C4 counterexample: editing `movieL` to disable proxying while keeping
the live-source flag true clears the pull key — afterwards the stored
entry has `RtmpSource = true` but an empty pull key, breaking the claimed
synchronization invariant. -/
theorem editMovie_clears_pullKey_with_live_flag_true :
    GetMovie (User.EditMovie bob 3 baseL roomL).2.movies 3 = some mAfterL ∧
    mAfterL.base.RtmpSource = true ∧
    mAfterL.PullKey = "" ∧
    movieL.PullKey = "k" := by
  decide

/-- C4 (amended): for an existing entry and an authorized requester,
`EditMovie` replaces the base info wholesale and clears the pull key
exactly when the live-source flag transitions true→false or the proxy
flag transitions true→false; otherwise the pull key is kept.  It never
allocates a key, so the pull-key/live-source synchronization is *not*
re-established by an edit (it is broken by a proxy-off edit that keeps
the live flag, and by an edit that turns the live flag on). -/
theorem editMovie_pullKey_characterization (u : User) (r : Room) (id : Nat)
    (b : BaseMovieInfo) (m : Movie) (hm : GetMovie r.movies id = some m)
    (hperm : u.admin = true ∨ u.name = r.rootName ∨ m.creatorName = u.name) :
    GetMovie (User.EditMovie u id b r).2.movies id =
      some { m with
             base := b,
             PullKey :=
               if (m.base.RtmpSource && !b.RtmpSource) || (m.base.Proxy && !b.Proxy)
               then "" else m.PullKey } := by
  unfold User.EditMovie
  simp only [hm, perm_cond_false u r m hperm, Bool.false_eq_true, if_false]
  by_cases h1 : (m.base.RtmpSource && !b.RtmpSource) = true
  · rw [if_pos h1]
    rw [GetMovie_updateMovie r.movies id
      (fun mm => { mm with base := b, PullKey := "" }) (fun mv => rfl), hm]
    simp [h1]
  · rw [if_neg h1]
    by_cases h2 : (m.base.Proxy && !b.Proxy) = true
    · rw [if_pos h2]
      rw [GetMovie_updateMovie r.movies id
        (fun mm => { mm with base := b, PullKey := "" }) (fun mv => rfl), hm]
      simp [h2]
    · rw [if_neg h2]
      rw [GetMovie_updateMovie r.movies id
        (fun mm => { mm with base := b }) (fun mv => rfl), hm]
      simp only [Bool.not_eq_true] at h1 h2
      simp [h1, h2]

/-- Witness for the amended C4 theorem: a rename-only edit of `movieL`
(flags unchanged) keeps the pull key. -/
theorem editMovie_pullKey_characterization_witness :
    GetMovie (User.EditMovie bob 3 baseL2 roomL).2.movies 3 =
      some { movieL with
             base := baseL2,
             PullKey :=
               if (movieL.base.RtmpSource && !baseL2.RtmpSource)
                   || (movieL.base.Proxy && !baseL2.Proxy)
               then "" else movieL.PullKey } :=
  editMovie_pullKey_characterization bob roomL 3 baseL2 movieL rfl (Or.inr (Or.inr rfl))

/-- Assigned-ID bounds for a playlist trace: when the ID counter cannot
wrap, the IDs collected by `runOps` are strictly increasing and lie in
`(r.mid, r.mid + newCount ops]`. -/
theorem runOps_ids_bounds (keyGen : Nat → String) :
    ∀ (ops : List MOp) (r : Room), r.mid + newCount ops < 2 ^ 64 →
      List.Pairwise (· < ·) (runOps keyGen r ops).1 ∧
      ∀ i ∈ (runOps keyGen r ops).1, r.mid < i ∧ i ≤ r.mid + newCount ops := by
  intro ops
  induction ops with
  | nil =>
    intro r _
    refine ⟨List.Pairwise.nil, ?_⟩
    intro i hi
    simp [runOps] at hi
  | cons op rest ih =>
    intro r hb
    cases op with
    | delM did =>
      have hmid : (DeleteMovieNode r did).mid = r.mid := by
        unfold DeleteMovieNode
        cases GetMovie r.movies did <;> rfl
      have hb2 : (DeleteMovieNode r did).mid + newCount rest < 2 ^ 64 := by
        rw [hmid]
        simpa [newCount] using hb
      have h := ih (DeleteMovieNode r did) hb2
      rw [hmid] at h
      have hrw : runOps keyGen r (MOp.delM did :: rest)
          = runOps keyGen (DeleteMovieNode r did) rest := rfl
      rw [hrw]
      simpa [newCount] using h
    | newM creator base =>
      have hb' : r.mid + newCount rest + 1 < 2 ^ 64 := by
        have h0 : r.mid + (newCount rest + 1) < 2 ^ 64 := by simpa [newCount] using hb
        omega
      have hmid1 : (r.mid + 1) % 2 ^ 64 = r.mid + 1 := Nat.mod_eq_of_lt (by omega)
      set r' := (User.NewMovieWithBaseMovie
        { name := creator, password := [], version := 1, admin := false, lastAct := 0 }
        base r keyGen 0).2 with hr'
      have hmid' : r'.mid = r.mid + 1 := by
        rw [hr']
        show (r.mid + 1) % 2 ^ 64 = r.mid + 1
        omega
      have hb2 : r'.mid + newCount rest < 2 ^ 64 := by
        rw [hmid']
        omega
      obtain ⟨hpw, hmem⟩ := ih r' hb2
      have hrw : runOps keyGen r (MOp.newM creator base :: rest)
          = ((r.mid + 1) % 2 ^ 64 :: (runOps keyGen r' rest).1, (runOps keyGen r' rest).2) := rfl
      rw [hrw, hmid1]
      constructor
      · refine List.Pairwise.cons ?_ hpw
        intro j hj
        have hj2 := hmem j hj
        rw [hmid'] at hj2
        omega
      · intro i hi
        rcases List.mem_cons.mp hi with hip | hit
        · subst hip
          simp only [newCount]
          omega
        · have hj2 := hmem i hit
          rw [hmid'] at hj2
          simp only [newCount]
          omega

/-- Closed form for the IDs assigned by a run of `n` consecutive
`NewMovie` calls: the `k`-th call (0-based) is assigned
`(mid + k + 1) % 2^64`. -/
theorem runOps_replicate_ids (keyGen : Nat → String) (s : String) (b : BaseMovieInfo) :
    ∀ (n : Nat) (r : Room),
      (runOps keyGen r (List.replicate n (MOp.newM s b))).1
        = (List.range n).map (fun k => (r.mid + k + 1) % 2 ^ 64) := by
  intro n
  induction n with
  | zero => intro r; rfl
  | succ n ih =>
    intro r
    rw [List.replicate_succ]
    set r' := (User.NewMovieWithBaseMovie
      { name := s, password := [], version := 1, admin := false, lastAct := 0 }
      b r keyGen 0).2 with hr'
    have hrw : (runOps keyGen r (MOp.newM s b :: List.replicate n (MOp.newM s b))).1
        = (r.mid + 1) % 2 ^ 64 :: (runOps keyGen r' (List.replicate n (MOp.newM s b))).1 := rfl
    rw [hrw, ih r']
    have hmid' : r'.mid = (r.mid + 1) % 2 ^ 64 := rfl
    rw [hmid', List.range_succ_eq_map, List.map_cons, List.map_map]
    refine congrArg₂ List.cons ?_ ?_
    · show (r.mid + 1) % 2 ^ 64 = (r.mid + 0 + 1) % 2 ^ 64
      omega
    · refine List.map_congr_left ?_
      intro k hk
      show ((r.mid + 1) % 2 ^ 64 + k + 1) % 2 ^ 64 = (r.mid + (k + 1) + 1) % 2 ^ 64
      omega

/-- A freshly created room: empty playlist, ID counter at zero. -/
def room0 : Room := { movies := [], mid := 0, rootName := "root", channels := [] }

/-- A plain base info used in ID-assignment traces. -/
def base0 : BaseMovieInfo :=
  { Url := "u", Name := "n", Live := false, Proxy := false, RtmpSource := false,
    Type_ := "", Headers := none }

/-- C6 counterexample: the ID counter is a uint64, so after `2^64`
successful `NewMovie` calls in a fresh room it wraps: the first call gets
ID 1 and the `2^64`-th gets ID 0, so the assigned IDs are not strictly
increasing (and begin to repeat). -/
theorem movie_ids_wrap_after_uint64_exhaustion :
    ¬ List.Pairwise (· < ·)
      (runOps (fun _ => "") room0 (List.replicate (2 ^ 64) (MOp.newM "alice" base0))).1 := by
  rw [runOps_replicate_ids]
  intro hpw
  rw [List.pairwise_iff_getElem] at hpw
  have h := hpw 0 (2 ^ 64 - 1)
    (by simp only [List.length_map, List.length_range]; omega)
    (by simp only [List.length_map, List.length_range]; omega)
    (by omega)
  simp only [List.getElem_map, List.getElem_range] at h
  simp only [room0] at h
  omega

/-- C6 (amended): within one room, over any trace of successful
`NewMovie` calls interleaved with deletions, and as long as fewer than
`2^64 - mid` movies are created (the uint64 counter does not wrap), the
assigned IDs are strictly increasing in call order and never reused. -/
theorem movie_ids_strictly_increasing (keyGen : Nat → String) (r : Room) (ops : List MOp)
    (hb : r.mid + newCount ops < 2 ^ 64) :
    List.Pairwise (· < ·) (runOps keyGen r ops).1 ∧
    (runOps keyGen r ops).1.Nodup :=
  have h := (runOps_ids_bounds keyGen ops r hb).1
  ⟨h, h.imp (fun hlt => Nat.ne_of_lt hlt)⟩

/-- Witness for the amended C6 theorem: create, delete, create in a fresh
room — the assigned IDs 1 and 2 are strictly increasing and distinct, the
deletion notwithstanding. -/
theorem movie_ids_strictly_increasing_witness :
    List.Pairwise (· < ·)
      (runOps (fun _ => "") room0
        [MOp.newM "alice" base0, MOp.delM 1, MOp.newM "bob" base0]).1 ∧
    (runOps (fun _ => "") room0
      [MOp.newM "alice" base0, MOp.delM 1, MOp.newM "bob" base0]).1.Nodup :=
  movie_ids_strictly_increasing (fun _ => "") room0
    [MOp.newM "alice" base0, MOp.delM 1, MOp.newM "bob" base0] (by decide)
